import Mathlib

/-
Verification of the CSV decoder and inline formatter of the plywood-catalog
repository, against its specification.

The embedded code lives in two files:
  - src/src/PlywoodSimple.js : escapeHTML, formatDescriptionToHtml, parseCSV,
    and the visibility filter inside fetchCsv;
  - src/unnamed/part_000 (PlywoodSingle.js) : a second parseCSV and the same
    visibility filter inside fetchSheet.

JavaScript strings are modelled as Lean String, JavaScript objects built by
successive property assignment as insertion-ordered association lists.
-/

/-- JavaScript object with string keys and string values, as produced by
successive assignments obj[k] = v: an insertion-ordered association list
whose keys are unique. -/
abbrev JsObj := List (String × String)

/-- ECMAScript property assignment obj[k] = v: if the key is already present
its value is updated in place (the key keeps its original creation
position), otherwise the new key is appended at the end.  The list records
property creation order; the enumeration order a caller observes is
produced by jsKeys, which moves array-index keys to the front. -/
def jsSet (obj : JsObj) (k v : String) : JsObj :=
  if obj.any (fun q => q.1 = k) then
    obj.map (fun q => if q.1 = k then (k, v) else q)
  else obj ++ [(k, v)]

/-- ECMAScript property read obj[k]: the value stored under the first
matching key, or none (undefined) when the key is absent. -/
def jsGet (obj : JsObj) (k : String) : Option String :=
  (obj.find? (fun q => q.1 = k)).map Prod.snd

/-- The numeric value of an all-digit property key. -/
def keyNat (k : String) : Nat := k.data.foldl (fun n c => 10 * n + (c.toNat - 48)) 0

/-- ECMAScript array-index property key: a canonical numeric string, that
is, a non-empty all-digit string without a leading zero (except "0"
itself) whose value is at most 2^32 - 2. -/
def isArrayIndexKey (k : String) : Bool :=
  decide (k.data ≠ []) && k.data.all (fun c => '0' ≤ c && c ≤ '9') &&
  (k = "0" || decide (k.data.head? ≠ some '0')) &&
  decide (keyNat k ≤ 4294967294)

/-- Insert an array-index key into an ascending run of array-index keys. -/
def insertIndexKey (k : String) : List String → List String
  | [] => [k]
  | a :: t => if keyNat k ≤ keyNat a then k :: a :: t else a :: insertIndexKey k t

/-- Sort array-index keys into ascending numeric order. -/
def sortIndexKeys : List String → List String
  | [] => []
  | a :: t => insertIndexKey a (sortIndexKeys t)

/-- The keys of a JavaScript object in enumeration order (for-in,
Object.keys): per OrdinaryOwnPropertyKeys, array-index keys first in
ascending numeric order, then the remaining string keys in property
creation order. -/
def jsKeys (obj : JsObj) : List String :=
  sortIndexKeys ((obj.map Prod.fst).filter isArrayIndexKey) ++
  (obj.map Prod.fst).filter (fun k => !isArrayIndexKey k)

/-- The ECMAScript WhiteSpace and LineTerminator code points removed by
String.prototype.trim: tab, LF, VT, FF, CR, space, NBSP, Ogham space mark,
the U+2000..U+200A spaces, LS, PS, NNBSP, MMSP, ideographic space and the
BOM. -/
def isJsWhitespace (c : Char) : Bool :=
  c.toNat = 0x09 || c.toNat = 0x0a || c.toNat = 0x0b || c.toNat = 0x0c || c.toNat = 0x0d ||
  c.toNat = 0x20 || c.toNat = 0xa0 || c.toNat = 0x1680 ||
  (0x2000 ≤ c.toNat && c.toNat ≤ 0x200a) ||
  c.toNat = 0x2028 || c.toNat = 0x2029 || c.toNat = 0x202f || c.toNat = 0x205f ||
  c.toNat = 0x3000 || c.toNat = 0xfeff

/-- ECMAScript String.prototype.trim: remove leading and trailing
whitespace. -/
def jsTrim (s : String) : String :=
  String.mk (((s.data.dropWhile isJsWhitespace).reverse.dropWhile isJsWhitespace).reverse)

/-- JavaScript s.replace with a global single-character pattern /c/g and a
literal replacement string: one left-to-right pass, replacements are not
rescanned. -/
def replaceChar (s : String) (c : Char) (r : String) : String :=
  String.join (s.data.map (fun ch => if ch = c then r else String.singleton ch))

/-- escapeHTML from src/src/PlywoodSimple.js lines 16 to 24, for string
arguments.  The guard on line 17 uses loose inequality (s != 0), which an
empty string fails (ECMAScript coerces "" == 0 to true), so for every string
argument control reaches the replacement chain; the chain on "" returns ""
anyway.  Note the first replacement on line 19 really is
s.replace(of ampersand, "&amp;&") in the source: each ampersand becomes
the five characters of the entity followed by a stray literal ampersand. -/
def escapeHTML (s : String) : String :=
  replaceChar (replaceChar (replaceChar (replaceChar
    (replaceChar s '&' "&amp;&") '<' "&lt;") '>' "&gt;") '"' "&quot;") '\x27' "&#39;"

/-- formatDescriptionToHtml from src/src/PlywoodSimple.js lines 26 to 41, as
written.  The guard on line 27 returns "" for empty input.  For any other
input the first statement of the body, let safe = escapeHtml(raw) on
line 28, calls the identifier escapeHtml, which is not defined anywhere in
the repository (the file defines escapeHTML with a capital T), so evaluation
raises a ReferenceError.  The rest of the body is unreachable and is
moreover not even syntactically well formed: the template literals opened on
lines 30 and 35 are never terminated, and the second substitution pass on
line 33 repeats the double-asterisk pattern of the first pass instead of a
single-asterisk one.  The model returns the outcome of a call: Except.ok
for a normal return, Except.error for a thrown exception. -/
def formatDescriptionToHtml (raw : String) : Except String String :=
  if raw = "" then Except.ok ""
  else Except.error "ReferenceError: escapeHtml is not defined"

/-- The scanning while-loop of parseCSV, src/src/PlywoodSimple.js lines 47
to 69, including the end-of-input flush of line 69.  The five parameters are
the remaining input raw.slice(i), the inQuotes flag, and the accumulators
cur, row and rows.  Pattern order mirrors the branch order of the source:
in quoted mode a doubled quote emits one literal quote (lines 51 to 52), any
other quote leaves quoted mode (line 53), every other character is appended
(line 55); outside quotes a quote enters quoted mode (line 57), a comma ends
the field (line 58), a carriage return followed by a line feed is consumed
as one row terminator and a lone terminator likewise ends the row (lines 59
to 66), and any other character is appended (line 67). -/
def scanCSV : List Char → Bool → String → List String → List (List String) → List (List String)
  | [], _, cur, row, rows =>
      if cur ≠ "" ∨ row.length > 0 then rows ++ [row ++ [cur]] else rows
  | '"' :: '"' :: rest, true, cur, row, rows => scanCSV rest true (cur.push '"') row rows
  | '"' :: rest, true, cur, row, rows => scanCSV rest false cur row rows
  | ch :: rest, true, cur, row, rows => scanCSV rest true (cur.push ch) row rows
  | '"' :: rest, false, cur, row, rows => scanCSV rest true cur row rows
  | ',' :: rest, false, cur, row, rows => scanCSV rest false "" (row ++ [cur]) rows
  | '\r' :: '\n' :: rest, false, cur, row, rows =>
      scanCSV rest false "" [] (rows ++ [row ++ [cur]])
  | '\r' :: rest, false, cur, row, rows =>
      scanCSV rest false "" [] (rows ++ [row ++ [cur]])
  | '\n' :: rest, false, cur, row, rows =>
      scanCSV rest false "" [] (rows ++ [row ++ [cur]])
  | ch :: rest, false, cur, row, rows => scanCSV rest false (cur.push ch) row rows

/-- The record-building for-loop of parseCSV, src/src/PlywoodSimple.js
line 74: for j from 0 below header.length, obj[header[j]] = r[j] defined ?
r[j].trim() : "".  The header list is consumed one name per step while the
cell list r is consumed in lockstep, so an exhausted r supplies "" for the
remaining names and cells beyond the header are never read. -/
def recordLoop : JsObj → List String → List String → JsObj
  | obj, [], _ => obj
  | obj, h :: hs, [] => recordLoop (jsSet obj h "") hs []
  | obj, h :: hs, v :: vs => recordLoop (jsSet obj h (jsTrim v)) hs vs

/-- parseCSV from src/src/PlywoodSimple.js lines 45 to 77: scan the raw text
into rows, return [] when no rows resulted, otherwise trim the first row
into the header and build one record per remaining row. -/
def parseCSV (raw : String) : List JsObj :=
  match scanCSV raw.data false "" [] [] with
  | [] => []
  | r0 :: rest => rest.map (recordLoop [] (r0.map jsTrim))

/-- The visibility filter applied to the parsed records in fetchCsv,
src/src/PlywoodSimple.js line 99 (and identically in fetchSheet,
src/unnamed/part_000 line 83): keep a record when its visible property is
strictly equal to "", "true" or "1". -/
def visibleRecords (parsed : List JsObj) : List JsObj :=
  parsed.filter (fun r =>
    jsGet r "visible" = some "" || jsGet r "visible" = some "true" ||
    jsGet r "visible" = some "1")

namespace PlywoodSingle

/-- The scanning while-loop of the second parseCSV, src/unnamed/part_000
lines 20 to 44, transcribed independently; the source text of the loop is
character-for-character the loop of PlywoodSimple.js. -/
def scanCSV : List Char → Bool → String → List String → List (List String) → List (List String)
  | [], _, cur, row, rows =>
      if cur ≠ "" ∨ row.length > 0 then rows ++ [row ++ [cur]] else rows
  | '"' :: '"' :: rest, true, cur, row, rows => scanCSV rest true (cur.push '"') row rows
  | '"' :: rest, true, cur, row, rows => scanCSV rest false cur row rows
  | ch :: rest, true, cur, row, rows => scanCSV rest true (cur.push ch) row rows
  | '"' :: rest, false, cur, row, rows => scanCSV rest true cur row rows
  | ',' :: rest, false, cur, row, rows => scanCSV rest false "" (row ++ [cur]) rows
  | '\r' :: '\n' :: rest, false, cur, row, rows =>
      scanCSV rest false "" [] (rows ++ [row ++ [cur]])
  | '\r' :: rest, false, cur, row, rows =>
      scanCSV rest false "" [] (rows ++ [row ++ [cur]])
  | '\n' :: rest, false, cur, row, rows =>
      scanCSV rest false "" [] (rows ++ [row ++ [cur]])
  | ch :: rest, false, cur, row, rows => scanCSV rest false (cur.push ch) row rows

/-- The record-building for-loop of the second parseCSV, src/unnamed/part_000
lines 49 to 51. -/
def recordLoop : JsObj → List String → List String → JsObj
  | obj, [], _ => obj
  | obj, h :: hs, [] => recordLoop (jsSet obj h "") hs []
  | obj, h :: hs, v :: vs => recordLoop (jsSet obj h (jsTrim v)) hs vs

/-- parseCSV from src/unnamed/part_000 lines 18 to 55 (the intermediate
const data is returned unchanged on line 54). -/
def parseCSV (raw : String) : List JsObj :=
  match scanCSV raw.data false "" [] [] with
  | [] => []
  | r0 :: rest => rest.map (recordLoop [] (r0.map jsTrim))

end PlywoodSingle

/-- The completed rows of a scan, for stating theorems about parseCSV. -/
def csvRows (raw : String) : List (List String) := scanCSV raw.data false "" [] []

/-- The trimmed header row of a scan, empty when no rows resulted. -/
def csvHeader (raw : String) : List String :=
  match csvRows raw with
  | [] => []
  | r0 :: _ => r0.map jsTrim

/-- The record the specification describes, for comparison with the
implementation: header names paired positionally with the row's trimmed
cells, names past the row's length paired with the empty string, cells past
the header's length dropped. -/
def specZipRecord : List String → List String → JsObj
  | [], _ => []
  | h :: hs, [] => (h, "") :: specZipRecord hs []
  | h :: hs, v :: vs => (h, jsTrim v) :: specZipRecord hs vs

/-- The head of what dropWhile leaves does not satisfy the predicate. -/
theorem dropWhile_head_not (p : Char → Bool) (l : List Char) (c : Char)
    (h : (l.dropWhile p).head? = some c) : p c = false := by
  induction l with
  | nil => simp [List.dropWhile] at h
  | cons a t ih =>
    rw [List.dropWhile_cons] at h
    by_cases hp : p a
    · rw [if_pos hp] at h; exact ih h
    · rw [if_neg hp] at h
      simp only [List.head?_cons, Option.some.injEq] at h
      subst h; exact Bool.eq_false_iff.mpr hp

/-- dropWhile leaves a list whose head fails the predicate unchanged. -/
theorem dropWhile_eq_self_of_head (p : Char → Bool) (l : List Char)
    (h : ∀ c, l.head? = some c → p c = false) : l.dropWhile p = l := by
  cases l with
  | nil => rfl
  | cons a t =>
    rw [List.dropWhile_cons, if_neg]
    simp [h a rfl]

/-- dropWhile is idempotent. -/
theorem dropWhile_idem (p : Char → Bool) (l : List Char) :
    (l.dropWhile p).dropWhile p = l.dropWhile p :=
  dropWhile_eq_self_of_head p _ (fun c hc => dropWhile_head_not p l c hc)

/-- dropWhile removes an initial segment: what remains closes the list. -/
theorem dropWhile_append_exists (p : Char → Bool) (l : List Char) :
    ∃ t, l = t ++ l.dropWhile p := by
  induction l with
  | nil => exact ⟨[], rfl⟩
  | cons a t ih =>
    rw [List.dropWhile_cons]
    by_cases hp : p a
    · rw [if_pos hp]
      obtain ⟨u, hu⟩ := ih
      exact ⟨a :: u, by rw [List.cons_append, ← hu]⟩
    · rw [if_neg hp]; exact ⟨[], rfl⟩

/-- Trimming is idempotent: a trimmed string trims to itself. -/
theorem jsTrim_idem (s : String) : jsTrim (jsTrim s) = jsTrim s := by
  unfold jsTrim
  set p := isJsWhitespace with hp
  simp only [String.data]
  set u := s.data.dropWhile p with hu
  set w := u.reverse.dropWhile p with hw
  have h1 : w.reverse.dropWhile p = w.reverse := by
    apply dropWhile_eq_self_of_head
    intro c hc
    rw [List.head?_reverse] at hc
    have hwne : w ≠ [] := by
      intro he; rw [he] at hc; simp at hc
    obtain ⟨t, ht⟩ := dropWhile_append_exists p u.reverse
    rw [← hw] at ht
    have hg : u.reverse.getLast? = some c := by
      rw [ht, List.getLast?_append_of_ne_nil t hwne]; exact hc
    rw [List.getLast?_reverse] at hg
    exact dropWhile_head_not p _ c hg
  rw [h1, List.reverse_reverse, hw, dropWhile_idem]

/-- Assigning a key absent from the object appends the new pair. -/
theorem jsSet_of_fresh (obj : JsObj) (k v : String) (h : ∀ q ∈ obj, q.1 ≠ k) :
    jsSet obj k v = obj ++ [(k, v)] := by
  unfold jsSet
  rw [if_neg]
  simp only [List.any_eq_true, decide_eq_true_eq, not_exists, not_and]
  intro q hq
  exact h q hq

/-- Every member of an object after an assignment is an original member or
the assigned pair. -/
theorem mem_jsSet (obj : JsObj) (k v : String) (q : String × String)
    (h : q ∈ jsSet obj k v) : q ∈ obj ∨ q = (k, v) := by
  unfold jsSet at h
  split at h
  · rcases List.mem_map.mp h with ⟨p, hp, he⟩
    by_cases hpk : p.1 = k
    · right; rw [← he, if_pos hpk]
    · left; rw [← he, if_neg hpk]; exact hp
  · rcases List.mem_append.mp h with h1 | h1
    · exact Or.inl h1
    · exact Or.inr (List.mem_singleton.mp h1)

/-- The stored (creation-order) keys of the specified positional record are
the header names. -/
theorem fst_specZipRecord : ∀ (hs vs : List String),
    (specZipRecord hs vs).map Prod.fst = hs := by
  intro hs
  induction hs with
  | nil => intro vs; cases vs <;> rfl
  | cons h t ih =>
    intro vs
    cases vs with
    | nil => simp only [specZipRecord, List.map_cons]; rw [ih []]
    | cons v vs => simp only [specZipRecord, List.map_cons]; rw [ih vs]

/-- A filter over a list none of whose members pass is empty. -/
theorem filter_none_of_all_false (p : String → Bool) : ∀ (l : List String),
    (∀ k ∈ l, p k = false) → l.filter p = [] := by
  intro l
  induction l with
  | nil => intro _; rfl
  | cons a t ih =>
    intro h
    rw [List.filter_cons, h a (List.mem_cons_self a t)]
    exact ih (fun k hk => h k (List.mem_cons_of_mem _ hk))

/-- A filter over a list all of whose members pass is the list itself. -/
theorem filter_all_of_all_true (p : String → Bool) : ∀ (l : List String),
    (∀ k ∈ l, p k = true) → l.filter p = l := by
  intro l
  induction l with
  | nil => intro _; rfl
  | cons a t ih =>
    intro h
    rw [List.filter_cons, h a (List.mem_cons_self a t)]
    show a :: t.filter p = a :: t
    rw [ih (fun k hk => h k (List.mem_cons_of_mem _ hk))]

/-- When no key of an object is an array-index key, its enumeration order
is its creation order. -/
theorem jsKeys_eq_fst_of_plain (obj : JsObj)
    (h : ∀ k ∈ obj.map Prod.fst, isArrayIndexKey k = false) :
    jsKeys obj = obj.map Prod.fst := by
  unfold jsKeys
  rw [filter_none_of_all_false _ _ h,
    filter_all_of_all_true _ _ (fun k hk => by rw [h k hk]; rfl)]
  rfl

/-- With pairwise-distinct header names none of which occurs in the
accumulator, the record loop appends exactly the specified positional
record. -/
theorem recordLoop_eq_spec : ∀ (hs vs : List String) (obj : JsObj),
    hs.Nodup → (∀ q ∈ obj, q.1 ∉ hs) →
    recordLoop obj hs vs = obj ++ specZipRecord hs vs := by
  intro hs
  induction hs with
  | nil => intro vs obj _ _; cases vs <;> simp [recordLoop, specZipRecord]
  | cons h t ih =>
    intro vs obj hnd hdisj
    have hne : ∀ q ∈ obj, q.1 ≠ h := fun q hq he =>
      hdisj q hq (he ▸ List.mem_cons_self h t)
    have hnd2 : t.Nodup := (List.nodup_cons.mp hnd).2
    have hht : h ∉ t := (List.nodup_cons.mp hnd).1
    have hdisj2 : ∀ (val : String) (q : String × String), q ∈ obj ++ [(h, val)] → q.1 ∉ t := by
      intro val q hq
      rcases List.mem_append.mp hq with h1 | h1
      · exact fun hmem => hdisj q h1 (List.mem_cons_of_mem _ hmem)
      · rcases List.mem_singleton.mp h1 with rfl
        exact hht
    cases vs with
    | nil =>
      rw [recordLoop, jsSet_of_fresh obj h "" hne, ih [] _ hnd2 (hdisj2 "")]
      simp [specZipRecord]
    | cons v vs =>
      rw [recordLoop, jsSet_of_fresh obj h (jsTrim v) hne, ih vs _ hnd2 (hdisj2 (jsTrim v))]
      simp [specZipRecord]

/-- Every key and value the record loop produces is trim-fixed, provided the
accumulator and the header names are. -/
theorem recordLoop_trimmed : ∀ (hs vs : List String) (obj : JsObj),
    (∀ q ∈ obj, jsTrim q.1 = q.1 ∧ jsTrim q.2 = q.2) →
    (∀ h ∈ hs, jsTrim h = h) →
    ∀ q ∈ recordLoop obj hs vs, jsTrim q.1 = q.1 ∧ jsTrim q.2 = q.2 := by
  intro hs
  induction hs with
  | nil => intro vs obj hobj _ q hq; cases vs <;> exact hobj q hq
  | cons h t ih =>
    intro vs obj hobj hkeys q hq
    have hkh : jsTrim h = h := hkeys h (List.mem_cons_self h t)
    have hkeys2 : ∀ x ∈ t, jsTrim x = x := fun x hx => hkeys x (List.mem_cons_of_mem _ hx)
    cases vs with
    | nil =>
      refine ih [] _ ?_ hkeys2 q hq
      intro p hp
      rcases mem_jsSet obj h "" p hp with h1 | h1
      · exact hobj p h1
      · rw [h1]; exact ⟨hkh, rfl⟩
    | cons v vs =>
      refine ih vs _ ?_ hkeys2 q hq
      intro p hp
      rcases mem_jsSet obj h (jsTrim v) p hp with h1 | h1
      · exact hobj p h1
      · rw [h1]; exact ⟨hkh, jsTrim_idem v⟩

/-- parseCSV decomposed through the scanned rows and the trimmed header. -/
theorem parseCSV_eq (raw : String) :
    parseCSV raw = (csvRows raw).tail.map (recordLoop [] (csvHeader raw)) := by
  simp only [parseCSV, csvHeader, csvRows]
  cases scanCSV raw.data false "" [] [] with
  | nil => rfl
  | cons r0 rest => rfl

/-- Every name in the trimmed header is trim-fixed. -/
theorem csvHeader_trimmed (raw : String) (h : String) (hm : h ∈ csvHeader raw) :
    jsTrim h = h := by
  unfold csvHeader at hm
  cases e : csvRows raw with
  | nil => rw [e] at hm; simp at hm
  | cons r0 rest =>
    rw [e] at hm
    change h ∈ r0.map jsTrim at hm
    rcases List.mem_map.mp hm with ⟨t, _, rfl⟩
    exact jsTrim_idem t

/-- In quoted mode, a character other than a double quote is appended to the
field buffer (the catch-all quoted branch, stated for a variable
character). -/
theorem scan_quoted_other (ch : Char) (rest : List Char) (cur : String) (row : List String)
    (rows : List (List String)) (h : ch ≠ '"') :
    scanCSV (ch :: rest) true cur row rows = scanCSV rest true (cur.push ch) row rows := by
  cases rest with
  | nil => exact scanCSV.eq_4 _ _ _ ch [] (fun r1 he _ => h he) (fun he => h he)
  | cons d ds => exact scanCSV.eq_4 _ _ _ ch (d :: ds) (fun r1 he _ => h he) (fun he => h he)

/-- A closing double quote (one not followed by another double quote) leaves
quoted mode without consuming the next character. -/
theorem scan_close_quote (rest : List Char) (cur : String) (row : List String)
    (rows : List (List String)) (h : rest.head? ≠ some '"') :
    scanCSV ('"' :: rest) true cur row rows = scanCSV rest false cur row rows := by
  apply scanCSV.eq_3
  intro rest1 he
  exact h (by rw [he]; rfl)

/-- A lone carriage return (one not followed by a line feed) terminates the
row by itself. -/
theorem scan_lone_cr (rest : List Char) (cur : String) (row : List String)
    (rows : List (List String)) (h : rest.head? ≠ some '\n') :
    scanCSV ('\r' :: rest) false cur row rows =
      scanCSV rest false "" [] (rows ++ [row ++ [cur]]) := by
  apply scanCSV.eq_8
  intro rest1 he
  exact h (by rw [he]; rfl)

/-- With no double quote in the remaining input, the quoted-mode scan
appends every remaining character to the open field and then reaches end of
input. -/
theorem scan_unterminated (rest : List Char) : ∀ (cur : String) (row : List String)
    (rows : List (List String)), '"' ∉ rest →
    scanCSV rest true cur row rows = scanCSV [] true (rest.foldl String.push cur) row rows := by
  induction rest with
  | nil => intro cur row rows _; rfl
  | cons c cs ih =>
    intro cur row rows h
    have hc : c ≠ '"' := fun he => h (he ▸ List.mem_cons_self c cs)
    have hcs : '"' ∉ cs := fun m => h (List.mem_cons_of_mem _ m)
    rw [scan_quoted_other c cs cur row rows hc, ih _ _ _ hcs]
    rfl

/-- The two transcribed scanning loops agree on every input and state. -/
theorem scanCSV_agree (s : List Char) (q : Bool) (cur : String) (row : List String)
    (rows : List (List String)) :
    PlywoodSingle.scanCSV s q cur row rows = scanCSV s q cur row rows := by
  induction s, q, cur, row, rows using scanCSV.induct <;>
    simp_all [scanCSV, PlywoodSingle.scanCSV]

/-- The two transcribed record loops agree on every accumulator, header and
row. -/
theorem recordLoop_agree : ∀ (hs vs : List String) (obj : JsObj),
    PlywoodSingle.recordLoop obj hs vs = recordLoop obj hs vs := by
  intro hs
  induction hs with
  | nil => intro vs obj; cases vs <;> rfl
  | cons h t ih =>
    intro vs obj
    cases vs with
    | nil => rw [recordLoop, PlywoodSingle.recordLoop, ih]
    | cons v vs => rw [recordLoop, PlywoodSingle.recordLoop, ih]

/-- Claim C1: for every input string the decoder terminates and returns a
list of records (parseCSV is a total computable Lean function, so the
existence of its value is immediate), and when the remaining input of an
open quoted field contains no closing double quote, the scan consumes all
of it into the open field and proceeds to the ordinary end-of-input flush
instead of raising an error. -/
theorem decode_total_and_unterminated_quote (s : String) (rest : List Char) (cur : String)
    (row : List String) (rows : List (List String)) (h : '"' ∉ rest) :
    (∃ records, parseCSV s = records) ∧
    scanCSV rest true cur row rows = scanCSV [] true (rest.foldl String.push cur) row rows :=
  ⟨⟨parseCSV s, rfl⟩, scan_unterminated rest cur row rows h⟩

/-- Witness for C1 at a concrete unterminated tail. -/
theorem decode_total_and_unterminated_quote_witness :
    '"' ∉ ['a', 'b'] ∧
    ((∃ records, parseCSV "x" = records) ∧
      scanCSV ['a', 'b'] true "q" [] [] =
        scanCSV [] true (['a', 'b'].foldl String.push "q") [] []) :=
  ⟨by decide, decode_total_and_unterminated_quote "x" ['a', 'b'] "q" [] [] (by decide)⟩

/-- Claim C2: inside a quoted field a doubled double quote appends one
literal quote and stays in quoted mode; a double quote not followed by
another one closes the field; a comma, a line feed and a carriage return
are appended to the field literally; and the worked example decodes to one
record whose note value keeps the embedded comma, quote and newline. -/
theorem quoted_field_decoding (rest rest2 : List Char) (cur : String) (row : List String)
    (rows : List (List String)) (h : rest2.head? ≠ some '"') :
    scanCSV ('"' :: '"' :: rest) true cur row rows = scanCSV rest true (cur.push '"') row rows ∧
    scanCSV ('"' :: rest2) true cur row rows = scanCSV rest2 false cur row rows ∧
    scanCSV (',' :: rest) true cur row rows = scanCSV rest true (cur.push ',') row rows ∧
    scanCSV ('\n' :: rest) true cur row rows = scanCSV rest true (cur.push '\n') row rows ∧
    scanCSV ('\r' :: rest) true cur row rows = scanCSV rest true (cur.push '\r') row rows ∧
    parseCSV "id,note\n1,\"hello, \"\"world\"\"\nline2\"" =
      [[("id", "1"), ("note", "hello, \"world\"\nline2")]] :=
  ⟨rfl, scan_close_quote rest2 cur row rows h, rfl, rfl,
    scan_quoted_other '\r' rest cur row rows (by decide), rfl⟩

/-- Witness for C2 at a concrete tail not starting with a quote. -/
theorem quoted_field_decoding_witness :
    (['x'] : List Char).head? ≠ some '"' ∧
    (scanCSV ('"' :: '"' :: ['y']) true "c" ["r"] [] =
        scanCSV ['y'] true (String.push "c" '"') ["r"] [] ∧
      scanCSV ('"' :: ['x']) true "c" ["r"] [] = scanCSV ['x'] false "c" ["r"] [] ∧
      scanCSV (',' :: ['y']) true "c" ["r"] [] =
        scanCSV ['y'] true (String.push "c" ',') ["r"] [] ∧
      scanCSV ('\n' :: ['y']) true "c" ["r"] [] =
        scanCSV ['y'] true (String.push "c" '\n') ["r"] [] ∧
      scanCSV ('\r' :: ['y']) true "c" ["r"] [] =
        scanCSV ['y'] true (String.push "c" '\r') ["r"] [] ∧
      parseCSV "id,note\n1,\"hello, \"\"world\"\"\nline2\"" =
        [[("id", "1"), ("note", "hello, \"world\"\nline2")]]) :=
  ⟨by decide, quoted_field_decoding ['y'] ['x'] "c" ["r"] [] (by decide)⟩

/-- Counterexample to claim C3 as stated, in two independent ways.  With the
duplicated header of "a,a" followed by the data row "1,2", the single
record produced has key list ["a"] (the second assignment to the same
property overwrites the first), not the header's trimmed cell list
["a", "a"].  And with the header "a,1" followed by the data row "x,y",
whose trimmed names are pairwise distinct, the record enumerates its keys
as ["1", "a"] — the array-index key "1" comes first per
OrdinaryOwnPropertyKeys — not in the header order ["a", "1"]. -/
theorem header_keys_reordered_or_collapsed :
    (∃ rec, rec ∈ parseCSV "a,a\n1,2" ∧ jsKeys rec ≠ csvHeader "a,a\n1,2") ∧
    (∃ rec, rec ∈ parseCSV "a,1\nx,y" ∧ jsKeys rec ≠ csvHeader "a,1\nx,y") :=
  ⟨⟨[("a", "2")], by decide, by decide⟩,
    ⟨[("a", "x"), ("1", "y")], by decide, by decide⟩⟩

/-- Claim C3 amended: when the trimmed header names are pairwise distinct
and none of them is an array-index string (a canonical numeric string of
value at most 2^32 - 2), every record's keys enumerate exactly as the
header names in header order, and the decoder's output is precisely one
positionally zipped record per data row, with positions past the row's
length mapped to the empty string and cells beyond the header dropped. -/
theorem records_zip_header_of_plain_names (raw : String) (hnd : (csvHeader raw).Nodup)
    (hni : ∀ k ∈ csvHeader raw, isArrayIndexKey k = false) :
    (∀ rec ∈ parseCSV raw, jsKeys rec = csvHeader raw) ∧
    parseCSV raw = (csvRows raw).tail.map (specZipRecord (csvHeader raw)) := by
  have hfun : ∀ vs, recordLoop [] (csvHeader raw) vs = specZipRecord (csvHeader raw) vs := by
    intro vs
    rw [recordLoop_eq_spec (csvHeader raw) vs [] hnd (by simp)]
    simp
  have hb : parseCSV raw = (csvRows raw).tail.map (specZipRecord (csvHeader raw)) := by
    rw [parseCSV_eq]
    exact List.map_congr_left (fun r _ => hfun r)
  refine ⟨?_, hb⟩
  intro rec hrec
  rw [hb] at hrec
  rcases List.mem_map.mp hrec with ⟨r, _, rfl⟩
  rw [jsKeys_eq_fst_of_plain _ ?_, fst_specZipRecord]
  intro k hk
  rw [fst_specZipRecord] at hk
  exact hni k hk

/-- Witness for the amended C3 at a concrete two-row input with a distinct,
non-numeric header and a short data row. -/
theorem records_zip_header_of_plain_names_witness :
    (csvHeader "a,b\n1").Nodup ∧
    (∀ k ∈ csvHeader "a,b\n1", isArrayIndexKey k = false) ∧
    ((∀ rec ∈ parseCSV "a,b\n1", jsKeys rec = csvHeader "a,b\n1") ∧
      parseCSV "a,b\n1" = (csvRows "a,b\n1").tail.map (specZipRecord (csvHeader "a,b\n1"))) :=
  ⟨by decide, by decide,
    records_zip_header_of_plain_names "a,b\n1" (by decide) (by decide)⟩

/-- Claim C4: outside quoted fields a carriage return followed by a line
feed is consumed as one row terminator, a lone carriage return and a lone
line feed also terminate a row, at end of input a non-empty field buffer or
a row with at least one completed field is flushed as a final row, and the
worked example without a trailing newline decodes to exactly two records. -/
theorem row_terminators_and_eof_flush (rest rest2 : List Char) (q : Bool) (cur : String)
    (row : List String) (rows : List (List String)) (h : rest2.head? ≠ some '\n') :
    scanCSV ('\r' :: '\n' :: rest) false cur row rows =
      scanCSV rest false "" [] (rows ++ [row ++ [cur]]) ∧
    scanCSV ('\r' :: rest2) false cur row rows =
      scanCSV rest2 false "" [] (rows ++ [row ++ [cur]]) ∧
    scanCSV ('\n' :: rest) false cur row rows =
      scanCSV rest false "" [] (rows ++ [row ++ [cur]]) ∧
    scanCSV [] q cur row rows =
      (if cur ≠ "" ∨ row.length > 0 then rows ++ [row ++ [cur]] else rows) ∧
    parseCSV "id,category\n1,Birch\n2,Oak" =
      [[("id", "1"), ("category", "Birch")], [("id", "2"), ("category", "Oak")]] :=
  ⟨rfl, scan_lone_cr rest2 cur row rows h, rfl, rfl, rfl⟩

/-- Witness for C4 at a concrete tail not starting with a line feed. -/
theorem row_terminators_and_eof_flush_witness :
    (['x'] : List Char).head? ≠ some '\n' ∧
    (scanCSV ('\r' :: '\n' :: ['y']) false "c" ["r"] [] =
        scanCSV ['y'] false "" [] ([] ++ [["r"] ++ ["c"]]) ∧
      scanCSV ('\r' :: ['x']) false "c" ["r"] [] =
        scanCSV ['x'] false "" [] ([] ++ [["r"] ++ ["c"]]) ∧
      scanCSV ('\n' :: ['y']) false "c" ["r"] [] =
        scanCSV ['y'] false "" [] ([] ++ [["r"] ++ ["c"]]) ∧
      scanCSV [] true "c" ["r"] [] =
        (if ("c" : String) ≠ "" ∨ (["r"] : List String).length > 0
          then [] ++ [["r"] ++ ["c"]] else []) ∧
      parseCSV "id,category\n1,Birch\n2,Oak" =
        [[("id", "1"), ("category", "Birch")], [("id", "2"), ("category", "Oak")]]) :=
  ⟨by decide, row_terminators_and_eof_flush ['y'] ['x'] true "c" ["r"] [] (by decide)⟩

/-- Counterexample to claim C5 as stated: the quoted cell of
"a" followed by a newline and a quoted, space-padded x is returned as the
trimmed value "x", so a quoted cell's leading and trailing whitespace is
not preserved in the record. -/
theorem quoted_whitespace_is_trimmed :
    parseCSV "a\n\"  x  \"" = [[("a", "x")]] ∧ ("x" : String) ≠ "  x  " :=
  ⟨rfl, by decide⟩

/-- Claim C5 amended: the decoder trims every header name and every cell
value uniformly, whether or not its content came from inside a quoted
field — every key and every value of every returned record is a fixed
point of trimming. -/
theorem decode_output_fully_trimmed (raw : String) (rec : JsObj) (q : String × String)
    (hrec : rec ∈ parseCSV raw) (hq : q ∈ rec) :
    jsTrim q.1 = q.1 ∧ jsTrim q.2 = q.2 := by
  rw [parseCSV_eq] at hrec
  rcases List.mem_map.mp hrec with ⟨r, _, rfl⟩
  refine recordLoop_trimmed (csvHeader raw) r [] (by simp) ?_ q hq
  intro hname hmem
  exact csvHeader_trimmed raw hname hmem

/-- Witness for the amended C5 at a concrete decoded record. -/
theorem decode_output_fully_trimmed_witness :
    [(("a" : String), ("1" : String))] ∈ parseCSV "a\n1" ∧
    (("a" : String), ("1" : String)) ∈ [(("a" : String), ("1" : String))] ∧
    (jsTrim "a" = "a" ∧ jsTrim "1" = "1") :=
  ⟨by decide, by decide,
    decode_output_fully_trimmed "a\n1" [("a", "1")] ("a", "1") (by decide) (by decide)⟩

/-- Claim C6 against the source as written: the formatter returns "" for
empty input, but for any non-empty input it is not total — the call on a
one-character string already throws a ReferenceError, because the body's
first statement invokes the undefined identifier escapeHtml (and the
enclosing file does not even parse, its template literals being
unterminated). -/
theorem format_empty_ok_nonempty_raises :
    formatDescriptionToHtml "" = Except.ok "" ∧
    formatDescriptionToHtml "x" = Except.error "ReferenceError: escapeHtml is not defined" :=
  ⟨rfl, rfl⟩

/-- Claim C7 against the source as written: the escaping function maps an
ampersand to the six characters of "&amp;&" — the named entity followed by
a stray literal ampersand — not to the named entity "&amp;"; angle brackets
themselves are escaped as claimed. -/
theorem escapeHTML_ampersand_misescaped :
    escapeHTML "&" = "&amp;&" ∧ escapeHTML "&" ≠ "&amp;" ∧
    escapeHTML "<script>" = "&lt;script&gt;" :=
  ⟨rfl, by decide, rfl⟩

/-- Claim C8 against the source as written: formatting "**bold**" does not
produce a strong-emphasis wrapper; the call throws the ReferenceError of
the undefined escapeHtml before any substitution pass runs (and the second
pass's pattern in the source repeats the double-asterisk pattern of the
first instead of a single-asterisk one). -/
theorem format_bold_raises :
    formatDescriptionToHtml "**bold**" =
      Except.error "ReferenceError: escapeHtml is not defined" :=
  rfl

/-- Claim C9: a decoded record passes the visibility filter exactly when its
visible property holds the empty string, "true" or "1"; records whose
visible property holds any other value, or is absent, are excluded. -/
theorem visible_filter_membership (raw : String) (r : JsObj) :
    r ∈ visibleRecords (parseCSV raw) ↔
      r ∈ parseCSV raw ∧ (jsGet r "visible" = some "" ∨ jsGet r "visible" = some "true" ∨
        jsGet r "visible" = some "1") := by
  simp [visibleRecords, List.mem_filter, Bool.or_eq_true, decide_eq_true_eq, or_assoc]

/-- Claim C10: the two parseCSV implementations, transcribed independently
from src/src/PlywoodSimple.js and src/unnamed/part_000, return the same
record list for every input string. -/
theorem parseCSV_copies_agree (raw : String) :
    PlywoodSingle.parseCSV raw = parseCSV raw := by
  unfold parseCSV PlywoodSingle.parseCSV
  rw [scanCSV_agree]
  cases scanCSV raw.data false "" [] [] with
  | nil => rfl
  | cons r0 rest =>
    have hfun : PlywoodSingle.recordLoop [] (r0.map jsTrim) = recordLoop [] (r0.map jsTrim) :=
      funext (fun vs => recordLoop_agree (r0.map jsTrim) vs [])
    simp only [hfun]
